import Mathlib

/-!
Verification of ccl-fabric-sdk-go: delegated signing through a Vault Transit engine

A shallow embedding of the three packages of the repository

* `vault`       (`vault/vault.go`): the Transit client,
* `identity`    (`identity/identity.go`): `VaultKey`, `VaultIdentity`, `VaultSigningIdentity`,
* `cryptosuite` (`cryptosuite/cryptosuite.go`): `VaultCryptoSuite`,

followed by the properties of the specification that were checked against it.

Conventions.  A Go call that returns `(value, error)` is an `Outcome`: `ok v` is `(v, nil)`,
`error e` is `(nil, e)` and `panic` is a run-time panic.  Go byte slices and the byte content of Go
strings are lists of bytes (a nil slice and an empty slice are both `[]`).  Nullable pointers are
`Option`s.  Functions of the Go standard library and of third-party modules that the repository
calls but does not contain are fields of `Lib` (taken as parameters) or carry a doc comment that
says how they were modelled.
-/

namespace CclSdk

/-! ## Go run-time model -/

abbrev Bytes := List UInt8

/-- Result of a Go call: normal return with a nil error, return of a non-nil error, or a panic. -/
inductive Outcome (α : Type) where
  | ok (val : α)
  | error (msg : String)
  | panic (msg : String)
  deriving DecidableEq, Repr

/-- A dynamically typed Go value (`interface{}`), as far as the code inspects it. -/
inductive GoValue where
  | nil
  | str (s : String)
  | bool (b : Bool)
  | other (typeName : String)
  deriving DecidableEq, Repr

/-- Go map index expression `m[key]` on a `map[string]interface{}`: the nil interface when the
key is absent. -/
def mapIndex : List (String × GoValue) → String → GoValue
  | [], _ => GoValue.nil
  | (k, v) :: rest, key => if k = key then v else mapIndex rest key

/-- Go `strings.Split(s, sep)` for a one-character separator, on the characters of `s`. -/
def splitChars (sep : Char) : List Char → List (List Char)
  | [] => [[]]
  | c :: cs =>
    if c = sep then [] :: splitChars sep cs
    else
      match splitChars sep cs with
      | [] => [[c]]
      | field :: fields => (c :: field) :: fields

/-- Go `strings.Split(s, ":")`. -/
def stringsSplit (s : String) (sep : Char) : List String :=
  (splitChars sep s.data).map String.mk

/-- Type `elliptic.CurveParams`, reduced to the fields that are read: the curve's name, the order
`N` of its base point and its bit size. -/
structure CurveParams where
  Name : String
  N : Int
  BitSize : Nat
  deriving DecidableEq, Repr

/-- Type `ecdsa.PublicKey`. -/
structure PublicKey where
  Curve : CurveParams
  X : Int
  Y : Int
  deriving DecidableEq, Repr

/-- Library functions the repository calls (Go standard library), taken as parameters. -/
structure Lib where
  /-- Function `base64.StdEncoding.EncodeToString`. -/
  b64Encode : Bytes → String
  /-- Function `base64.StdEncoding.DecodeString`. -/
  b64Decode : String → Except String Bytes
  /-- Function `sha256.Sum256` (equally `sha256.New` followed by `Write` and `Sum(nil)`). -/
  sha256 : Bytes → Bytes
  /-- Function `strings.ToLower`. -/
  toLower : String → String
  /-- Function `elliptic.Marshal(curve, x, y)`: the uncompressed encoding of a point. -/
  ellipticMarshal : CurveParams → Int → Int → Bytes
  /-- Function `asn1.Marshal` on a pair of integers `(R, S)` (a DER sequence of two INTEGERs). -/
  asn1Marshal : Int → Int → Bytes
  /-- Function `asn1.Unmarshal` into a pair of integers `(R, S)`. -/
  asn1Unmarshal : Bytes → Except String (Int × Int)

/-! ## Package `vault` -/

/-- Type `vault.Secret` of the Vault API, reduced to the `Data` map the code reads. -/
structure Secret where
  Data : List (String × GoValue)
  deriving DecidableEq, Repr

/-- The request map `args` that is passed to `Write`. -/
abbrev Request := List (String × GoValue)

/-- Struct `Manager`.  The `client` is the connection to the custody service: what
`m.client.Logical().Write(path, args)` returns, a transport error or a possibly nil `*Secret`. -/
structure Manager where
  client : String → Request → Except String (Option Secret)
  OrgName : String

/-- Function `GetManager`; `newClient` stands for `vault.NewClient` followed by `SetToken`. -/
def GetManager (L : Lib)
    (newClient : String → String → Except String (String → Request → Except String (Option Secret)))
    (orgName address token : String) : Outcome Manager :=
  match newClient address token with
  | .error e => .error e
  | .ok client => .ok { client := client, OrgName := L.toLower orgName }

/-- The path `fmt.Sprintf("%s_Transit/sign/%s", m.OrgName, name)`. -/
def transitPath (m : Manager) (name : String) : String :=
  m.OrgName ++ "_Transit/sign/" ++ name

/-- The `args` map of `TransitSign`. -/
def signArgs (L : Lib) (signingBytes : Bytes) (prehashed : Bool) : Request :=
  [("input", .str (L.b64Encode signingBytes)), ("prehashed", .bool prehashed)]

/-- The `args` map of `TransitVerify`. -/
def verifyArgs (L : Lib) (signingBytes signature : Bytes) (prehashed : Bool) : Request :=
  [("input", .str (L.b64Encode signingBytes)),
   ("signature", .str (L.b64Encode signature)),
   ("prehashed", .bool prehashed)]

/-- What `TransitSign` does with the reply of a `Write` that returned a nil error:
`strings.Split(b64Sign.Data["signature"].(string), ":")`, then `DecodeString(s[2])`. -/
def parseSignReply (L : Lib) : Option Secret → Outcome Bytes
  | none => .panic "invalid memory address or nil pointer dereference"
  | some b64Sign =>
    match mapIndex b64Sign.Data "signature" with
    | .str sig =>
      match (stringsSplit sig ':')[2]? with
      | none => .panic "index out of range [2]"
      | some field =>
        match L.b64Decode field with
        | .error e => .error e
        | .ok signature => .ok signature
    | _ => .panic "interface conversion: interface \x7b\x7d is not string"

/-- Method `(*Manager).TransitSign`. -/
def Manager.TransitSign (L : Lib) (m : Manager) (signingBytes : Bytes) (name : String)
    (prehashed : Bool) : Outcome Bytes :=
  match m.client (transitPath m name) (signArgs L signingBytes prehashed) with
  | .error e => .error e
  | .ok b64Sign => parseSignReply L b64Sign

/-- What `TransitVerify` does with the reply of a `Write` that returned a nil error. -/
def parseVerifyReply : Option Secret → Outcome Unit
  | none => .panic "invalid memory address or nil pointer dereference"
  | some b64Sign =>
    match mapIndex b64Sign.Data "valid" with
    | .bool valid =>
      if !valid then .error "Signature is invalid" else .ok ()
    | _ => .error "Vault response parsing failed"

/-- Method `(*Manager).TransitVerify`. -/
def Manager.TransitVerify (L : Lib) (m : Manager) (signingBytes signature : Bytes)
    (name : String) (prehashed : Bool) : Outcome Unit :=
  match m.client (transitPath m name) (verifyArgs L signingBytes signature prehashed) with
  | .error e => .error e
  | .ok b64Sign => parseVerifyReply b64Sign

/-! ## Package `identity` -/

/-- Struct `VaultKey`: `core.Key` wrapper for `*ecdsa.PublicKey`. -/
structure VaultKey where
  ID : String
  PubKey : Option PublicKey
  deriving DecidableEq, Repr

/-- Method `(*VaultKey).SKI`. -/
def VaultKey.SKI (L : Lib) (k : VaultKey) : Bytes :=
  match k.PubKey with
  | none => []
  | some pub =>
    let raw := L.ellipticMarshal pub.Curve pub.X pub.Y
    L.sha256 raw

/-- Method `(*VaultKey).Symmetric`. -/
def VaultKey.Symmetric (_k : VaultKey) : Bool := false

/-- Method `(*VaultKey).Private`. -/
def VaultKey.Private (_k : VaultKey) : Bool := false

/-- Method `(*VaultKey).PublicKey`. -/
def VaultKey.PublicKey (k : VaultKey) : Outcome VaultKey := .ok k

/-- Struct `VaultIdentity`. -/
structure VaultIdentity where
  MSPID : String
  IDBytes : Bytes
  Vault : Option Manager
  Key : Option VaultKey

/-- The composite literal `VaultIdentity{}`. -/
def VaultIdentity.zero : VaultIdentity :=
  { MSPID := "", IDBytes := [], Vault := none, Key := none }

/-- Memory holding `VaultIdentity` structs; a `*VaultIdentity` is an index into it. -/
abbrev Heap := List VaultIdentity

/-- Method `(*VaultIdentity).Reset`, body `m = &VaultIdentity{}`: a zero struct is allocated and
its address is assigned to the receiver variable `m`, which is local to the call.  The result is
the memory and the value of `m` when the method returns. -/
def VaultIdentity.Reset (heap : Heap) (_m : Nat) : Heap × Nat :=
  let fresh := heap.length
  (heap ++ [VaultIdentity.zero], fresh)

/-- What the caller of `p.Reset()` finds behind its pointer `p` afterwards. -/
def afterReset (heap : Heap) (p : Nat) : Option VaultIdentity :=
  (VaultIdentity.Reset heap p).1[p]?

/-- Method `(*VaultIdentity).Verify`. -/
def VaultIdentity.Verify (L : Lib) (m : VaultIdentity) (msg sig : Bytes) : Outcome Unit :=
  let hash := L.sha256 msg
  match m.Key, m.Vault with
  | some key, some vault => vault.TransitVerify L hash sig key.ID true
  | _, _ => .panic "invalid memory address or nil pointer dereference"

/-- Method `(*VaultIdentity).EnrollmentCertificate`. -/
def VaultIdentity.EnrollmentCertificate (m : VaultIdentity) : Bytes := m.IDBytes

/-! ### Serialization

`Serialize` hands the struct to `proto.Marshal`, which walks the struct's fields by reflection. -/

/-- The value of a struct field as reflection sees it. -/
inductive FieldValue where
  | string (s : String)
  | bytes (b : Bytes)
  | manager (p : Option Manager)
  | key (p : Option VaultKey)

/-- A struct field: its name, the field number of its `protobuf:"bytes,<n>,opt,..."` tag (`none`
when the field has no `protobuf` tag) and its value. -/
structure StructField where
  name : String
  protobuf : Option Nat
  value : FieldValue

/-- The fields of struct `VaultIdentity` with their tags, in declaration order. -/
def VaultIdentity.fields (m : VaultIdentity) : List StructField :=
  [ { name := "MSPID", protobuf := some 1, value := .string m.MSPID },
    { name := "IDBytes", protobuf := some 2, value := .bytes m.IDBytes },
    { name := "Vault", protobuf := none, value := .manager m.Vault },
    { name := "Key", protobuf := none, value := .key m.Key } ]

/-- Base-128 varint of the protocol-buffer wire format; `fuel` bounds the number of bytes. -/
def varintFuel : Nat → Nat → Bytes
  | 0, n => [UInt8.ofNat n]
  | fuel + 1, n =>
    if n < 128 then [UInt8.ofNat n]
    else UInt8.ofNat (n % 128 + 128) :: varintFuel fuel (n / 128)

/-- Base-128 varint of `n`. -/
def varint (n : Nat) : Bytes := varintFuel n n

/-- A length-delimited field (wire type 2): key, length, payload.  A proto3 scalar field with
the empty value is not written. -/
def lengthDelimited (fieldNumber : Nat) (payload : Bytes) : Bytes :=
  if payload = [] then [] else varint (fieldNumber * 8 + 2) ++ varint payload.length ++ payload

/-- The bytes of a Go string. -/
def stringBytes (s : String) : Bytes := s.toUTF8.data.toList

/-- Modelled from the spec: `proto.Marshal` of github.com/golang/protobuf is not under src/.  It
writes the fields that carry a `protobuf` tag, in field order, as the spec's "structured encoding
of {membershipProviderID, certificateBytes} only"; a field without a tag is skipped. -/
def protoMarshal : List StructField → Outcome Bytes
  | [] => .ok []
  | f :: rest =>
    match protoMarshal rest with
    | .ok tail =>
      match f.protobuf, f.value with
      | none, _ => .ok tail
      | some n, .string s => .ok (lengthDelimited n (stringBytes s) ++ tail)
      | some n, .bytes b => .ok (lengthDelimited n b ++ tail)
      | some _, _ => .error ("proto: unsupported field type of " ++ f.name)
    | other => other

/-- Method `(*VaultIdentity).Serialize`. -/
def VaultIdentity.Serialize (m : VaultIdentity) : Outcome Bytes :=
  match protoMarshal m.fields with
  | .ok ident => .ok ident
  | .error err => .error err
  | .panic p => .panic p

/-! ### Signatures

The helpers of `github.com/hyperledger/fabric/bccsp/utils` and `crypto/ecdsa` that `Sign` and
`Verify` call. -/

/-- Modelled from the spec: `utils.UnmarshalECDSASignature` of hyperledger/fabric is not under
src/.  It decodes the signature "into its two numeric components" and fails when it "cannot be
decoded". -/
def UnmarshalECDSASignature (L : Lib) (raw : Bytes) : Outcome (Int × Int) :=
  match L.asn1Unmarshal raw with
  | .error err => .error ("failed unmashalling signature [" ++ err ++ "]")
  | .ok (r, s) => .ok (r, s)

/-- The half of the order of the key's curve: `N` shifted right by one bit. -/
def halfOrder (pub : PublicKey) : Int := pub.Curve.N / 2

/-- Modelled from the spec: `utils.SignatureToLowS` of hyperledger/fabric is not under src/.  It
canonicalizes the raw signature "to low-form", the form whose "second numeric component lies in
the lower half of the curve's order": a signature whose `s` is at most half the order is returned
as it is, otherwise `s` is replaced by `N - s` and the pair is encoded again.  The key's curve is
read only after the signature has been decoded. -/
def SignatureToLowS (L : Lib) (k : Option PublicKey) (signature : Bytes) : Outcome Bytes :=
  match UnmarshalECDSASignature L signature with
  | .error err => .error err
  | .panic p => .panic p
  | .ok (r, s) =>
    match k with
    | none => .panic "invalid memory address or nil pointer dereference"
    | some pub =>
      if s ≤ halfOrder pub then .ok signature
      else .ok (L.asn1Marshal r (pub.Curve.N - s))

/-- The inverse of `s` modulo the prime `N`, in `[0, N)`, by Fermat's method
(`s ^ (N - 2) mod N`). -/
def modInverse (s N : Int) : Int := s ^ (N - 2).toNat % N

/-- The arithmetic of a curve (Go `elliptic.Curve`) on a type `P` of points: the base point, the
point with given affine coordinates, the affine x coordinate of a point (`none` for the point at
infinity), and the conversion of a digest to an integer (`hashToInt`).  Point addition and
scalar multiplication are those of the commutative group `P`. -/
structure CurveArith (P : Type) where
  base : P
  point : Int → Int → P
  affineX : P → Option Int
  hashToInt : Bytes → Int

/-- Modelled from the spec: `ecdsa.Verify` of the Go standard library is not under src/; it is
the "standard asymmetric-signature verification".  With `e` the integer of the digest and `w` the
inverse of `s` modulo `N`, the signature `(r, s)` with `0 < r, s < N` is valid when the point
`(e * w mod N) G + (r * w mod N) Q` is not the point at infinity and its x coordinate is `r`
modulo `N`. -/
def ecdsaVerify {P : Type} [AddCommGroup P] (A : CurveArith P) (pub : PublicKey) (hash : Bytes)
    (r s : Int) : Bool :=
  let N := pub.Curve.N
  if r ≤ 0 ∨ s ≤ 0 then false
  else if N ≤ r ∨ N ≤ s then false
  else
    let e := A.hashToInt hash
    let w := modInverse s N
    let u1 := e * w % N
    let u2 := r * w % N
    match A.affineX (u1 • A.base + u2 • A.point pub.X pub.Y) with
    | none => false
    | some x => x % N == r

/-- Struct `VaultSigningIdentity`, which embeds `*VaultIdentity`. -/
structure VaultSigningIdentity where
  VaultIdentity : VaultIdentity

/-- Method `(*VaultSigningIdentity).Sign`. -/
def VaultSigningIdentity.Sign (L : Lib) (m : VaultSigningIdentity) (msg : Bytes) : Outcome Bytes :=
  let hash := L.sha256 msg
  match m.VaultIdentity.Key, m.VaultIdentity.Vault with
  | some key, some vault =>
    match vault.TransitSign L hash key.ID true with
    | .error err => .error err
    | .panic p => .panic p
    | .ok sig =>
      match SignatureToLowS L key.PubKey sig with
      | .error err => .error err
      | .panic p => .panic p
      | .ok sigLowS => .ok sigLowS
  | _, _ => .panic "invalid memory address or nil pointer dereference"

/-- Method `(*VaultSigningIdentity).PrivateKey`. -/
def VaultSigningIdentity.PrivateKey (m : VaultSigningIdentity) : Option VaultKey :=
  m.VaultIdentity.Key

/-! ## Package `cryptosuite` -/

/-- A value of interface type `core.Key`: a `*identity.VaultKey` or a key of another type. -/
inductive CoreKey where
  | vaultKey (k : VaultKey)
  | other (typeName : String)
  deriving DecidableEq, Repr

/-- The dynamic value of `cert.PublicKey`: a `*ecdsa.PublicKey` (possibly a nil pointer) or a key
of another type, such as `*rsa.PublicKey`. -/
inductive CertPublicKey where
  | ecdsa (k : Option PublicKey)
  | other (typeName : String)
  deriving DecidableEq, Repr

/-- Type `x509.Certificate`, reduced to its `PublicKey` field. -/
structure Certificate where
  PublicKey : CertPublicKey
  deriving DecidableEq, Repr

/-- The argument `raw interface{}` of `KeyImport`, by dynamic type. -/
inductive RawKey where
  | certificate (cert : Option Certificate)
  | ecdsaPublicKey (k : Option PublicKey)
  | other (typeName : String)
  deriving DecidableEq, Repr

/-- A Go `map[string]core.Key`; the entries are kept with distinct keys.  The key type is the byte
content of the Go string. -/
abbrev KeyMap := List (Bytes × VaultKey)

/-- The map read `value, ok := m[key]`. -/
def KeyMap.get : KeyMap → Bytes → Option VaultKey
  | [], _ => none
  | (k, v) :: rest, key => if k = key then some v else KeyMap.get rest key

/-- The map without the entry of `key`. -/
def KeyMap.erase : KeyMap → Bytes → KeyMap
  | [], _ => []
  | (k, v) :: rest, key => if k = key then KeyMap.erase rest key else (k, v) :: KeyMap.erase rest key

/-- The map assignment `m[key] = value`: an entry with this key is replaced. -/
def KeyMap.set (m : KeyMap) (key : Bytes) (value : VaultKey) : KeyMap :=
  (key, value) :: m.erase key

/-- Struct `VaultCryptoSuite`. -/
structure VaultCryptoSuite where
  vault : Manager
  keys : KeyMap

/-- Function `NewVaultCryptoSuite`; `none` is the exit of the process in `log.Fatal`. -/
def NewVaultCryptoSuite (L : Lib)
    (newClient : String → String → Except String (String → Request → Except String (Option Secret)))
    (name address token : String) : Option VaultCryptoSuite :=
  match GetManager L newClient name address token with
  | .ok vault => some { vault := vault, keys := [] }
  | _ => none

/-- Method `(*VaultCryptoSuite).KeyGen`. -/
def VaultCryptoSuite.KeyGen (_c : VaultCryptoSuite) : Outcome VaultKey :=
  .error "Key generating is not supported"

/-- Method `(*VaultCryptoSuite).KeyImport`: the returned key and error, and the suite after the
call. -/
def VaultCryptoSuite.KeyImport (L : Lib) (c : VaultCryptoSuite) (raw : RawKey) :
    Outcome VaultKey × VaultCryptoSuite :=
  match raw with
  | .certificate none => (.panic "invalid memory address or nil pointer dereference", c)
  | .certificate (some cert) =>
    match cert.PublicKey with
    | .ecdsa pubKey =>
      let pk : VaultKey := { ID := "", PubKey := pubKey }
      (.ok pk, { c with keys := c.keys.set (pk.SKI L) pk })
    | .other _ => (.error "invalid key type, it must be ECDSA Public Key", c)
  | .ecdsaPublicKey pubKey =>
    let pk : VaultKey := { ID := "", PubKey := pubKey }
    (.ok pk, { c with keys := c.keys.set (pk.SKI L) pk })
  | .other _ => (.error "unknown key type", c)

/-- Method `(*VaultCryptoSuite).GetKey`. -/
def VaultCryptoSuite.GetKey (c : VaultCryptoSuite) (ski : Bytes) : Outcome VaultKey :=
  match c.keys.get ski with
  | none => .error "key not found"
  | some key => .ok key

/-- Method `(*VaultCryptoSuite).GetHash`: the hash function that is returned. -/
def VaultCryptoSuite.GetHash (L : Lib) (_c : VaultCryptoSuite) : Outcome (Bytes → Bytes) :=
  .ok L.sha256

/-- Method `(*VaultCryptoSuite).Hash`. -/
def VaultCryptoSuite.Hash (L : Lib) (c : VaultCryptoSuite) (msg : Bytes) : Outcome Bytes :=
  match c.GetHash L with
  | .ok h => .ok (h msg)
  | .error err => .error err
  | .panic p => .panic p

/-- Method `(*VaultCryptoSuite).Sign`. -/
def VaultCryptoSuite.Sign (L : Lib) (c : VaultCryptoSuite) (k : CoreKey) (digest : Bytes) :
    Outcome Bytes :=
  match k with
  | .vaultKey vaultKey =>
    match c.vault.TransitSign L digest vaultKey.ID true with
    | .error err => .error err
    | .panic p => .panic p
    | .ok sig =>
      match SignatureToLowS L vaultKey.PubKey sig with
      | .error err => .error err
      | .panic p => .panic p
      | .ok sigLowS => .ok sigLowS
  | .other _ => .error "Invalid key type"

/-- Method `(*VaultCryptoSuite).Verify`. -/
def VaultCryptoSuite.Verify {P : Type} [AddCommGroup P] (L : Lib) (A : CurveArith P)
    (_c : VaultCryptoSuite) (k : CoreKey) (signature digest : Bytes) : Outcome Bool :=
  match k with
  | .vaultKey ecdsaPubKey =>
    match UnmarshalECDSASignature L signature with
    | .error err => .error ("Failed unmashalling signature [" ++ err ++ "]")
    | .panic p => .panic p
    | .ok (r, s) =>
      match ecdsaPubKey.PubKey with
      | none => .panic "invalid memory address or nil pointer dereference"
      | some pub => .ok (ecdsaVerify A pub digest r s)
  | .other _ => .error "Invalid key type"

/-- A run of `KeyImport` calls, one after the other: the suite after the last call. -/
def importAll (L : Lib) : VaultCryptoSuite → List RawKey → VaultCryptoSuite
  | c, [] => c
  | c, raw :: rest => importAll L (c.KeyImport L raw).2 rest

/-! ## The specification's view of the key store -/

/-- Spec, section 4.2: the Key Object of an import.  `importFromCertificate` "extracts the public
key from the certificate" and fails unless it is of the supported family, `importFromPublicKey`
"wraps the raw public key directly". -/
def specImportedKey : RawKey → Option VaultKey
  | .certificate (some cert) =>
    match cert.PublicKey with
    | .ecdsa pub => some { ID := "", PubKey := pub }
    | .other _ => none
  | .ecdsaPublicKey pub => some { ID := "", PubKey := pub }
  | _ => none

/-- The ECDSA public key (a possibly nil pointer) that a raw value holds: the certificate's
public key or the raw public key itself. -/
def RawKey.publicKey : RawKey → Option (Option PublicKey)
  | .certificate (some cert) =>
    match cert.PublicKey with
    | .ecdsa pub => some pub
    | .other _ => none
  | .ecdsaPublicKey pub => some pub
  | _ => none

/-- Spec, section 3, "last import wins on collision": among the imports `raws` (oldest first),
the Key Object of the most recent successful one whose fingerprint is `ski`. -/
def specLastImport (L : Lib) (raws : List RawKey) (ski : Bytes) : Option VaultKey :=
  (raws.filterMap specImportedKey).reverse.find? (fun k => k.SKI L = ski)

/-- Spec, section 8: the returned signature `sig` "decodes into two numeric components", the
first is the first component of the raw signature `raw` of the custody service, and the second
is "in the canonical (low) half of its range": at most half the order of the curve of `pub`.  It
is the raw `s` or its complement `N - s`, and is positive when the raw `s` lies in `(0, N)`. -/
def DecodesLowS (L : Lib) (pub : PublicKey) (raw sig : Bytes) : Prop :=
  ∃ r s s', UnmarshalECDSASignature L raw = .ok (r, s)
    ∧ UnmarshalECDSASignature L sig = .ok (r, s')
    ∧ s' ≤ pub.Curve.N / 2
    ∧ (s' = s ∨ s' = pub.Curve.N - s)
    ∧ (0 < s → s < pub.Curve.N → 0 < s')

/-! ## Instances on which the statements are evaluated -/

/-- Unary code of a natural number: `n` ones. -/
def unary (n : Nat) : Bytes := List.replicate n 1

/-- A stand-in for the DER encoding of `(r, s)`: the two signs, `|r|` in unary, a zero byte,
`|s|` in unary. -/
def demoMarshal (r s : Int) : Bytes :=
  (if r < 0 then 1 else 0) :: (if s < 0 then 1 else 0) :: (unary r.natAbs ++ 0 :: unary s.natAbs)

/-- The integer with the given sign byte and absolute value. -/
def signed (sign : UInt8) (n : Nat) : Int := if sign = 1 then -(n : Int) else (n : Int)

/-- Decoder of `demoMarshal`; bytes after the two numbers are ignored. -/
def demoUnmarshal : Bytes → Except String (Int × Int)
  | signR :: signS :: body =>
    let r := body.takeWhile (fun b => b == 1)
    match body.dropWhile (fun b => b == 1) with
    | [] => .error "truncated"
    | _ :: rest => .ok (signed signR r.length, signed signS (rest.takeWhile (fun b => b == 1)).length)
  | _ => .error "truncated"

/-- A small instance of `Lib`: each byte stands for one character in the text coding, the
fingerprint hash is the identity, and a point is coded as the byte 4 followed by one byte for
each coordinate. -/
def demoLib : Lib where
  b64Encode := fun bytes => String.mk (bytes.map (fun b => Char.ofNat b.toNat))
  b64Decode := fun s => .ok (s.data.map (fun ch => UInt8.ofNat ch.toNat))
  sha256 := fun bytes => bytes
  toLower := fun s => String.mk (s.data.map Char.toLower)
  ellipticMarshal := fun _ x y => [4, UInt8.ofNat x.toNat, UInt8.ofNat y.toNat]
  asn1Marshal := demoMarshal
  asn1Unmarshal := demoUnmarshal

/-- A custody service that answers every request with the same reply. -/
def constantManager (reply : Except String (Option Secret)) : Manager :=
  { client := fun _ _ => reply, OrgName := "org1" }

/-- The curve `y^2 = x^3 + 2x + 2` over the field with 17 elements; its group has the prime
order 19 and is generated by `(5, 1)`. -/
def demoCurve : CurveParams := { Name := "E(F17)", N := 19, BitSize := 5 }

/-- The multiples `1 G, 2 G, ..., 18 G` of the generator `G = (5, 1)` of `demoCurve`; `19 G` is
the point at infinity. -/
def demoPoints : List (Int × Int) :=
  [(5, 1), (6, 3), (10, 6), (3, 1), (9, 16), (16, 13), (0, 6), (13, 7), (7, 6), (7, 11),
   (13, 10), (0, 11), (16, 4), (9, 1), (3, 16), (10, 11), (6, 14), (5, 16)]

/-- The arithmetic of `demoCurve`: the point `k G` is the residue `k` modulo 19, so that point
addition is addition modulo 19.  The integer of a digest is its first byte. -/
def demoArith : CurveArith (ZMod 19) where
  base := 1
  point := fun x y => ((demoPoints.indexOf (x, y) + 1 : Nat) : ZMod 19)
  affineX := fun p => if p = 0 then none else (demoPoints[p.val - 1]?).map Prod.fst
  hashToInt := fun hash =>
    match hash with
    | [] => 0
    | b :: _ => (b.toNat : Int)

/-- The public key `Q = 7 G = (0, 6)` on `demoCurve`. -/
def demoPub : PublicKey := { Curve := demoCurve, X := 0, Y := 6 }

/-- A key of the custody service with the public key `demoPub`. -/
def demoKey : VaultKey := { ID := "user", PubKey := some demoPub }

/-- The signature `(r, s) = (7, 13)` of the digest `[5]` under `demoPub`, made with the private
key 7 and the nonce 10; its `s` is in the high half of the order. -/
def demoRawSignature : Bytes := demoMarshal 7 13

/-- A custody service that answers every sign request with `demoRawSignature`. -/
def demoSigner : Manager :=
  constantManager (.ok (some { Data := [("signature",
    .str ("vault:v1:" ++ demoLib.b64Encode demoRawSignature))] }))

/-- A crypto suite connected to `demoSigner`. -/
def demoSuite : VaultCryptoSuite := { vault := demoSigner, keys := [] }

/-- A stand-in for `vault.NewClient`: the connection to `demoSigner`, for every address. -/
def demoNewClient :
    String → String → Except String (String → Request → Except String (Option Secret)) :=
  fun _ _ => .ok demoSigner.client

/-- A second public key, `2 G = (6, 3)` on `demoCurve`. -/
def demoPub2 : PublicKey := { Curve := demoCurve, X := 6, Y := 3 }

/-! ## Properties: the Transit client -/

/-- C1: on a reply without a `signature` field, with a `signature` that is not a string, or with
a string of fewer than three colon-separated fields, `TransitSign` does not return an error: it
panics, for every input and key name. -/
theorem TransitSign_malformed_reply_panics (L : Lib) (m : Manager) (signingBytes : Bytes)
    (name : String) (prehashed : Bool) (reply : Secret)
    (hreply : m.client (transitPath m name) (signArgs L signingBytes prehashed)
      = .ok (some reply))
    (hbad : ∀ sig, mapIndex reply.Data "signature" = .str sig →
      (stringsSplit sig ':').length < 3) :
    ∃ p, m.TransitSign L signingBytes name prehashed = .panic p := by
  have hrun : m.TransitSign L signingBytes name prehashed = parseSignReply L (some reply) := by
    simp only [Manager.TransitSign, hreply]
  rw [hrun]
  cases hv : mapIndex reply.Data "signature" with
  | str sig =>
    have hlen : (stringsSplit sig ':').length ≤ 2 := Nat.lt_succ_iff.mp (hbad sig hv)
    have hnone : (stringsSplit sig ':')[2]? = none := List.getElem?_eq_none hlen
    exact ⟨"index out of range [2]", by simp [parseSignReply, hv, hnone]⟩
  | nil =>
    exact ⟨"interface conversion: interface \x7b\x7d is not string", by simp [parseSignReply, hv]⟩
  | bool b =>
    exact ⟨"interface conversion: interface \x7b\x7d is not string", by simp [parseSignReply, hv]⟩
  | other t =>
    exact ⟨"interface conversion: interface \x7b\x7d is not string", by simp [parseSignReply, hv]⟩

/-- Witness of C1: the reply has no `signature` field. -/
theorem TransitSign_malformed_reply_panics_witness :
    ∃ p, (constantManager (.ok (some { Data := [] }))).TransitSign demoLib [1, 2] "user" true
      = .panic p :=
  TransitSign_malformed_reply_panics demoLib (constantManager (.ok (some { Data := [] })))
    [1, 2] "user" true { Data := [] } rfl (by intro sig h; simp [mapIndex] at h)

/-- C5: when the `Write` of `TransitVerify` returns a nil error together with a nil `*Secret` (a
reply without a body, which has no `valid` field), `TransitVerify` does not return the error
"Vault response parsing failed": it panics on `b64Sign.Data`, for every input, signature and key
name. -/
theorem TransitVerify_nil_reply_panics (L : Lib) (m : Manager) (signingBytes signature : Bytes)
    (name : String) (prehashed : Bool)
    (hreply : m.client (transitPath m name) (verifyArgs L signingBytes signature prehashed)
      = .ok none) :
    m.TransitVerify L signingBytes signature name prehashed
        = .panic "invalid memory address or nil pointer dereference"
    ∧ m.TransitVerify L signingBytes signature name prehashed
        ≠ .error "Vault response parsing failed"
    ∧ m.TransitVerify L signingBytes signature name prehashed ≠ .ok () := by
  have hrun : m.TransitVerify L signingBytes signature name prehashed
      = .panic "invalid memory address or nil pointer dereference" := by
    simp only [Manager.TransitVerify, hreply, parseVerifyReply]
  rw [hrun]
  exact ⟨rfl, by simp, by simp⟩

/-- Witness of C5: the custody service answers the verify request with an empty body. -/
theorem TransitVerify_nil_reply_panics_witness :
    (constantManager (.ok none)).TransitVerify demoLib [1, 2] [3] "user" true
        = .panic "invalid memory address or nil pointer dereference"
    ∧ (constantManager (.ok none)).TransitVerify demoLib [1, 2] [3] "user" true
        ≠ .error "Vault response parsing failed"
    ∧ (constantManager (.ok none)).TransitVerify demoLib [1, 2] [3] "user" true ≠ .ok () :=
  TransitVerify_nil_reply_panics demoLib (constantManager (.ok none)) [1, 2] [3] "user" true rfl

/-- On a reply that is a non-nil `*Secret`, `TransitVerify` tells the cases apart: the result is
nil exactly when the reply's `valid` field is the boolean true; a boolean false gives the error
"Signature is invalid", a missing or non-boolean `valid` gives the different error
"Vault response parsing failed". -/
theorem TransitVerify_distinguishes (L : Lib) (m : Manager) (signingBytes signature : Bytes)
    (name : String) (prehashed : Bool) (reply : Secret)
    (hreply : m.client (transitPath m name) (verifyArgs L signingBytes signature prehashed)
      = .ok (some reply)) :
    (m.TransitVerify L signingBytes signature name prehashed = .ok ()
        ↔ mapIndex reply.Data "valid" = .bool true)
    ∧ (mapIndex reply.Data "valid" = .bool false →
        m.TransitVerify L signingBytes signature name prehashed = .error "Signature is invalid")
    ∧ ((∀ b, mapIndex reply.Data "valid" ≠ .bool b) →
        m.TransitVerify L signingBytes signature name prehashed
          = .error "Vault response parsing failed")
    ∧ "Signature is invalid" ≠ "Vault response parsing failed" := by
  have hrun : m.TransitVerify L signingBytes signature name prehashed
      = parseVerifyReply (some reply) := by
    simp only [Manager.TransitVerify, hreply]
  rw [hrun]
  refine ⟨?_, ?_, ?_, by decide⟩
  · cases hv : mapIndex reply.Data "valid" with
    | bool b => cases b <;> simp [parseVerifyReply, hv]
    | nil => simp [parseVerifyReply, hv]
    | str t => simp [parseVerifyReply, hv]
    | other t => simp [parseVerifyReply, hv]
  · intro hv
    simp [parseVerifyReply, hv]
  · intro hv
    cases hcase : mapIndex reply.Data "valid" with
    | bool b => exact absurd hcase (hv b)
    | nil => simp [parseVerifyReply, hcase]
    | str t => simp [parseVerifyReply, hcase]
    | other t => simp [parseVerifyReply, hcase]

/-- An instance of `TransitVerify_distinguishes`: a service that answers `valid = false`. -/
theorem TransitVerify_distinguishes_witness :
    ((constantManager (.ok (some { Data := [("valid", .bool false)] }))).TransitVerify demoLib
        [1, 2] [3] "user" true = .ok ()
        ↔ mapIndex [("valid", GoValue.bool false)] "valid" = .bool true)
    ∧ (mapIndex [("valid", GoValue.bool false)] "valid" = .bool false →
        (constantManager (.ok (some { Data := [("valid", .bool false)] }))).TransitVerify demoLib
          [1, 2] [3] "user" true = .error "Signature is invalid")
    ∧ ((∀ b, mapIndex [("valid", GoValue.bool false)] "valid" ≠ .bool b) →
        (constantManager (.ok (some { Data := [("valid", .bool false)] }))).TransitVerify demoLib
          [1, 2] [3] "user" true = .error "Vault response parsing failed")
    ∧ "Signature is invalid" ≠ "Vault response parsing failed" :=
  TransitVerify_distinguishes demoLib
    (constantManager (.ok (some { Data := [("valid", .bool false)] }))) [1, 2] [3] "user" true
    { Data := [("valid", .bool false)] } rfl

/-! ## Properties: identities and keys -/

/-- C10: `Reset` leaves the struct behind the caller's pointer as it was: whatever identity `m`
the pointer refers to, it still refers to `m` after the call, and for an identity with MSPID
"Org1MSP" that is not the zero `VaultIdentity`. -/
theorem Reset_leaves_identity (before after : Heap) (m : VaultIdentity) :
    afterReset (before ++ m :: after) before.length = some m
    ∧ afterReset [{ MSPID := "Org1MSP", IDBytes := [1], Vault := none, Key := none }] 0
        ≠ some VaultIdentity.zero := by
  constructor
  · have hget : (before ++ m :: (after ++ [VaultIdentity.zero]))[before.length]? = some m := by
      rw [List.getElem?_append_right (le_refl _)]
      simp
    simpa [afterReset, VaultIdentity.Reset] using hget
  · simp [afterReset, VaultIdentity.Reset, VaultIdentity.zero]

/-- C6: the fingerprint of a key with a non-nil public key is the SHA-256 hash of the
uncompressed encoding of the public key's point, whatever the key's ID: two keys with the same
public key have the same fingerprint. -/
theorem SKI_depends_on_public_key_only (L : Lib) (id1 id2 : String) (pub : PublicKey) :
    VaultKey.SKI L { ID := id1, PubKey := some pub } = VaultKey.SKI L { ID := id2, PubKey := some pub }
    ∧ VaultKey.SKI L { ID := id1, PubKey := some pub }
        = L.sha256 (L.ellipticMarshal pub.Curve pub.X pub.Y) :=
  ⟨rfl, rfl⟩

/-- C7: the serialized form of an identity is the encoding of its MSPID (field 1) and IDBytes
(field 2) and nothing else: identities that agree on the two serialize to the same bytes, whatever
their Vault connection and Key. -/
theorem Serialize_ignores_vault_and_key (mspid : String) (idBytes : Bytes)
    (vault1 vault2 : Option Manager) (key1 key2 : Option VaultKey) :
    VaultIdentity.Serialize { MSPID := mspid, IDBytes := idBytes, Vault := vault1, Key := key1 }
      = VaultIdentity.Serialize { MSPID := mspid, IDBytes := idBytes, Vault := vault2, Key := key2 }
    ∧ VaultIdentity.Serialize { MSPID := mspid, IDBytes := idBytes, Vault := vault1, Key := key1 }
      = .ok (lengthDelimited 1 (stringBytes mspid) ++ lengthDelimited 2 idBytes) := by
  constructor <;> simp [VaultIdentity.Serialize, VaultIdentity.fields, protoMarshal]

/-! ## Properties: the key store -/

theorem KeyMap.get_erase (m : KeyMap) (key k : Bytes) :
    (m.erase key).get k = if k = key then none else m.get k := by
  induction m with
  | nil => simp [KeyMap.get, KeyMap.erase]
  | cons e rest ih =>
    obtain ⟨ek, ev⟩ := e
    by_cases hek : ek = key
    · subst hek
      have herase : KeyMap.erase ((ek, ev) :: rest) ek = KeyMap.erase rest ek := by
        simp [KeyMap.erase]
      rw [herase, ih]
      by_cases hk : k = ek
      · simp [hk]
      · have hk' : ¬ ek = k := fun h => hk h.symm
        simp [KeyMap.get, hk, hk']
    · by_cases hk : ek = k
      · have hk' : ¬ k = key := fun h => hek (hk.trans h)
        simp [KeyMap.erase, KeyMap.get, hek, hk, hk']
      · simp [KeyMap.erase, KeyMap.get, ih, hek, hk]

theorem KeyMap.get_set (m : KeyMap) (key : Bytes) (value : VaultKey) (k : Bytes) :
    (m.set key value).get k = if key = k then some value else m.get k := by
  by_cases hk : key = k
  · simp [KeyMap.set, KeyMap.get, hk]
  · have hk' : ¬ k = key := fun h => hk h.symm
    simp [KeyMap.set, KeyMap.get, hk, hk', KeyMap.get_erase]

theorem KeyImport_of_imported (L : Lib) (c : VaultCryptoSuite) (raw : RawKey) (k : VaultKey)
    (h : specImportedKey raw = some k) :
    c.KeyImport L raw = (.ok k, { c with keys := c.keys.set (k.SKI L) k }) := by
  cases raw with
  | certificate cert =>
    cases cert with
    | none => simp [specImportedKey] at h
    | some cert =>
      cases hpk : cert.PublicKey with
      | ecdsa pub =>
        simp only [specImportedKey, hpk, Option.some.injEq] at h
        subst h
        simp [VaultCryptoSuite.KeyImport, hpk]
      | other t => simp [specImportedKey, hpk] at h
  | ecdsaPublicKey pub =>
    simp only [specImportedKey, Option.some.injEq] at h
    subst h
    simp [VaultCryptoSuite.KeyImport]
  | other t => simp [specImportedKey] at h

theorem KeyImport_of_not_imported (L : Lib) (c : VaultCryptoSuite) (raw : RawKey)
    (h : specImportedKey raw = none) :
    (c.KeyImport L raw).2 = c ∧ ∀ k, (c.KeyImport L raw).1 ≠ .ok k := by
  cases raw with
  | certificate cert =>
    cases cert with
    | none => simp [VaultCryptoSuite.KeyImport]
    | some cert =>
      cases hpk : cert.PublicKey with
      | ecdsa pub => simp [specImportedKey, hpk] at h
      | other t => simp [VaultCryptoSuite.KeyImport, hpk]
  | ecdsaPublicKey pub => simp [specImportedKey] at h
  | other t => simp [VaultCryptoSuite.KeyImport]

theorem KeyImport_ok_iff (L : Lib) (c : VaultCryptoSuite) (raw : RawKey) (k : VaultKey) :
    (c.KeyImport L raw).1 = .ok k ↔ specImportedKey raw = some k := by
  cases h : specImportedKey raw with
  | none => simpa using (KeyImport_of_not_imported L c raw h).2 k
  | some k' => simp [KeyImport_of_imported L c raw k' h]

theorem get_importAll (L : Lib) (raws : List RawKey) (c : VaultCryptoSuite) (ski : Bytes) :
    (importAll L c raws).keys.get ski = (specLastImport L raws ski).or (c.keys.get ski) := by
  induction raws generalizing c with
  | nil => simp [importAll, specLastImport]
  | cons raw rest ih =>
    rw [importAll, ih]
    cases h : specImportedKey raw with
    | none =>
      rw [(KeyImport_of_not_imported L c raw h).1]
      simp [specLastImport, List.filterMap_cons, h]
    | some k =>
      rw [KeyImport_of_imported L c raw k h]
      simp only [specLastImport, List.filterMap_cons, h, List.reverse_cons, List.find?_append,
        KeyMap.get_set]
      cases List.find? (fun k => decide (k.SKI L = ski))
          (List.filterMap specImportedKey rest).reverse with
      | some found => simp
      | none =>
        by_cases hk : k.SKI L = ski
        · simp [hk]
        · simp [hk]

theorem specImportedKey_eq (raw : RawKey) (k : VaultKey) (h : specImportedKey raw = some k) :
    k.ID = "" ∧ raw.publicKey = some k.PubKey := by
  cases raw with
  | certificate cert =>
    cases cert with
    | none => simp [specImportedKey] at h
    | some cert =>
      cases hpk : cert.PublicKey with
      | ecdsa pub =>
        simp only [specImportedKey, hpk, Option.some.injEq] at h
        subst h
        simp [RawKey.publicKey, hpk]
      | other t => simp [specImportedKey, hpk] at h
  | ecdsaPublicKey pub =>
    simp only [specImportedKey, Option.some.injEq] at h
    subst h
    simp [RawKey.publicKey]
  | other t => simp [specImportedKey] at h

theorem new_suite_is_empty (L : Lib)
    (newClient : String → String → Except String (String → Request → Except String (Option Secret)))
    (name address token : String) (c : VaultCryptoSuite)
    (hnew : NewVaultCryptoSuite L newClient name address token = some c) : c.keys = [] := by
  unfold NewVaultCryptoSuite at hnew
  cases hm : GetManager L newClient name address token with
  | ok vault =>
    simp only [hm, Option.some.injEq] at hnew
    subst hnew
    rfl
  | error e => simp [hm] at hnew
  | panic e => simp [hm] at hnew

/-- C3: on a suite built by `NewVaultCryptoSuite` and after any run of `KeyImport` calls,
`GetKey(ski)` for a `ski` that is not the fingerprint of a key returned by one of the imports is
the error "key not found" with a nil key; with no imports at all this is every `ski` on the fresh
suite. -/
theorem GetKey_unknown_ski (L : Lib)
    (newClient : String → String → Except String (String → Request → Except String (Option Secret)))
    (name address token : String) (c : VaultCryptoSuite) (raws : List RawKey) (ski : Bytes)
    (hnew : NewVaultCryptoSuite L newClient name address token = some c)
    (hski : ∀ raw ∈ raws, ∀ c' k, (VaultCryptoSuite.KeyImport L c' raw).1 = .ok k →
      k.SKI L ≠ ski) :
    (importAll L c raws).GetKey ski = .error "key not found" := by
  have hnone : specLastImport L raws ski = none := by
    simp only [specLastImport, List.find?_eq_none, List.mem_reverse, List.mem_filterMap]
    rintro k ⟨raw, hraw, hk⟩
    simpa using hski raw hraw c k ((KeyImport_ok_iff L c raw k).2 hk)
  have hget := get_importAll L raws c ski
  rw [hnone, new_suite_is_empty L newClient name address token c hnew] at hget
  simp only [VaultCryptoSuite.GetKey, hget, KeyMap.get, Option.or]

/-- Witness of C3: after the import of the key `(0, 6)`, a lookup of the fingerprint of the point
`(5, 1)`. -/
theorem GetKey_unknown_ski_witness :
    (importAll demoLib demoSuite [.ecdsaPublicKey (some demoPub)]).GetKey [4, 5, 1]
      = .error "key not found" :=
  GetKey_unknown_ski demoLib demoNewClient "Org1" "http://localhost:8200" "" demoSuite
    [.ecdsaPublicKey (some demoPub)] [4, 5, 1] rfl
    (by
      intro raw hraw c' k hk
      simp only [List.mem_singleton] at hraw
      subst hraw
      simp only [VaultCryptoSuite.KeyImport, Outcome.ok.injEq] at hk
      subst hk
      decide)

/-- C4: after a successful `KeyImport` that returned `k`, and whatever imports came before and
come later, `GetKey(k.SKI())` succeeds; the key it returns is the one of the most recent
successful import with that fingerprint, which is this import or a later one, and its public key
is the public key that import was given.  When no later import of a different public key has the
same fingerprint, the key is `k` itself. -/
theorem GetKey_after_import (L : Lib) (c : VaultCryptoSuite) (before : List RawKey) (raw : RawKey)
    (later : List RawKey) (k : VaultKey)
    (himp : ((importAll L c before).KeyImport L raw).1 = .ok k) :
    ∃ k', (importAll L c (before ++ raw :: later)).GetKey (k.SKI L) = .ok k'
      ∧ specLastImport L (before ++ raw :: later) (k.SKI L) = some k'
      ∧ k'.SKI L = k.SKI L
      ∧ (∃ raw' ∈ raw :: later, (∀ c', (VaultCryptoSuite.KeyImport L c' raw').1 = .ok k')
          ∧ raw'.publicKey = some k'.PubKey)
      ∧ ((∀ raw' ∈ later, ∀ c' k'', (VaultCryptoSuite.KeyImport L c' raw').1 = .ok k'' →
            k''.SKI L = k.SKI L → k''.PubKey = k.PubKey) → k' = k) := by
  have hk : specImportedKey raw = some k := (KeyImport_ok_iff L _ raw k).1 himp
  have hlast : specLastImport L (before ++ raw :: later) (k.SKI L)
      = ((List.filterMap specImportedKey later).reverse.find?
          (fun k' => k'.SKI L = k.SKI L)).or (some k) := by
    simp only [specLastImport, List.filterMap_append, List.filterMap_cons, hk, List.reverse_append,
      List.reverse_cons, List.find?_append, List.append_assoc, List.singleton_append]
    cases List.find? (fun k' => decide (k'.SKI L = k.SKI L))
        (List.filterMap specImportedKey later).reverse with
    | some found => simp
    | none => simp [List.find?_cons]
  have hget := get_importAll L (before ++ raw :: later) c (k.SKI L)
  rw [hlast] at hget ⊢
  cases hfind : List.find? (fun k' => decide (k'.SKI L = k.SKI L))
      (List.filterMap specImportedKey later).reverse with
  | none =>
    rw [hfind] at hget
    refine ⟨k, ?_, by simp, rfl, ⟨raw, by simp, ?_, (specImportedKey_eq raw k hk).2⟩, fun _ => rfl⟩
    · simp [VaultCryptoSuite.GetKey, hget]
    · intro c'
      exact (KeyImport_ok_iff L c' raw k).2 hk
  | some found =>
    rw [hfind] at hget
    have hp : found.SKI L = k.SKI L := by simpa using List.find?_some hfind
    have hmem : found ∈ List.filterMap specImportedKey later := by
      simpa using List.mem_of_find?_eq_some hfind
    obtain ⟨raw', hraw', hfound⟩ := List.mem_filterMap.1 hmem
    refine ⟨found, ?_, by simp, hp,
      ⟨raw', List.mem_cons_of_mem _ hraw', ?_, (specImportedKey_eq raw' found hfound).2⟩, ?_⟩
    · simp [VaultCryptoSuite.GetKey, hget]
    · intro c'
      exact (KeyImport_ok_iff L c' raw' found).2 hfound
    · intro hcoll
      have hpub := hcoll raw' hraw' c found ((KeyImport_ok_iff L c raw' found).2 hfound) hp
      have hid1 := (specImportedKey_eq raw' found hfound).1
      have hid2 := (specImportedKey_eq raw k hk).1
      cases found
      cases k
      simp_all

/-- Witness of C4: a failed import, the import of the key `(0, 6)`, then the import of a
certificate with the key `(6, 3)`. -/
theorem GetKey_after_import_witness :
    ∃ k', (importAll demoLib demoSuite ([.other "rsa"] ++ .ecdsaPublicKey (some demoPub)
          :: [.certificate (some { PublicKey := .ecdsa (some demoPub2) })])).GetKey
          (VaultKey.SKI demoLib { ID := "", PubKey := some demoPub }) = .ok k'
      ∧ specLastImport demoLib ([.other "rsa"] ++ .ecdsaPublicKey (some demoPub)
          :: [.certificate (some { PublicKey := .ecdsa (some demoPub2) })])
          (VaultKey.SKI demoLib { ID := "", PubKey := some demoPub }) = some k'
      ∧ k'.SKI demoLib = VaultKey.SKI demoLib { ID := "", PubKey := some demoPub }
      ∧ (∃ raw' ∈ .ecdsaPublicKey (some demoPub)
            :: [RawKey.certificate (some { PublicKey := .ecdsa (some demoPub2) })],
          (∀ c', (VaultCryptoSuite.KeyImport demoLib c' raw').1 = .ok k')
          ∧ raw'.publicKey = some k'.PubKey)
      ∧ ((∀ raw' ∈ [RawKey.certificate (some { PublicKey := .ecdsa (some demoPub2) })],
            ∀ c' k'', (VaultCryptoSuite.KeyImport demoLib c' raw').1 = .ok k'' →
            k''.SKI demoLib = VaultKey.SKI demoLib { ID := "", PubKey := some demoPub } →
            k''.PubKey = (VaultKey.mk "" (some demoPub)).PubKey) →
          k' = { ID := "", PubKey := some demoPub }) :=
  GetKey_after_import demoLib demoSuite [.other "rsa"] (.ecdsaPublicKey (some demoPub))
    [.certificate (some { PublicKey := .ecdsa (some demoPub2) })]
    { ID := "", PubKey := some demoPub } rfl

/-- C8: `KeyImport` of a certificate whose public key is not an ECDSA key, or of a raw value of
another type, returns an error with a nil key and leaves the suite as it was, so that every
`GetKey` answers as before; more generally every `KeyImport` that does not succeed leaves the
suite unchanged. -/
theorem KeyImport_failure_keeps_store (L : Lib) (c : VaultCryptoSuite) (typeName : String) :
    c.KeyImport L (.certificate (some { PublicKey := .other typeName }))
        = (.error "invalid key type, it must be ECDSA Public Key", c)
    ∧ c.KeyImport L (.other typeName) = (.error "unknown key type", c)
    ∧ (∀ ski, (c.KeyImport L (.certificate (some { PublicKey := .other typeName }))).2.GetKey ski
        = c.GetKey ski)
    ∧ (∀ ski, (c.KeyImport L (.other typeName)).2.GetKey ski = c.GetKey ski)
    ∧ (∀ raw, (∀ k, (c.KeyImport L raw).1 ≠ .ok k) → (c.KeyImport L raw).2 = c) := by
  refine ⟨rfl, rfl, fun _ => rfl, fun _ => rfl, ?_⟩
  intro raw hfail
  cases h : specImportedKey raw with
  | none => exact (KeyImport_of_not_imported L c raw h).1
  | some k => exact absurd ((KeyImport_ok_iff L c raw k).2 h) (hfail k)

/-! ## Properties: signatures -/

theorem takeWhile_unary (n : Nat) (rest : Bytes) :
    (unary n ++ 0 :: rest).takeWhile (fun b => b == 1) = unary n := by
  induction n with
  | zero => simp [unary]
  | succ n ih =>
    have h := ih
    simp only [unary] at h ⊢
    simp [List.replicate_succ, List.takeWhile_cons, h]

theorem dropWhile_unary (n : Nat) (rest : Bytes) :
    (unary n ++ 0 :: rest).dropWhile (fun b => b == 1) = 0 :: rest := by
  induction n with
  | zero => simp [unary]
  | succ n ih =>
    have h := ih
    simp only [unary] at h ⊢
    simp [List.replicate_succ, List.dropWhile_cons, h]

theorem takeWhile_unary_end (n : Nat) :
    (unary n).takeWhile (fun b => b == 1) = unary n := by
  induction n with
  | zero => simp [unary]
  | succ n ih =>
    have h := ih
    simp only [unary] at h ⊢
    simp [List.replicate_succ, List.takeWhile_cons, h]

theorem signed_natAbs (n : Int) : signed (if n < 0 then 1 else 0) n.natAbs = n := by
  by_cases h : n < 0
  · simp only [signed, h, if_true]
    omega
  · simp only [signed, h, if_false]
    have h01 : ¬ ((0 : UInt8) = 1) := by decide
    simp only [h01, if_false]
    omega

theorem demo_codec_roundtrip (r s : Int) : demoUnmarshal (demoMarshal r s) = .ok (r, s) := by
  simp only [demoMarshal, demoUnmarshal, takeWhile_unary, dropWhile_unary, takeWhile_unary_end]
  simp [unary, signed_natAbs]

theorem zsmul_eq_neg_of_modEq {P : Type} [AddCommGroup P] (g : P) (N a b : Int)
    (hN : N • g = 0) (hab : a ≡ -b [ZMOD N]) : a • g = -(b • g) := by
  obtain ⟨t, ht⟩ := hab.symm.dvd
  have ha : a = -b + t * N := by linarith
  rw [ha, add_zsmul, mul_zsmul, hN, smul_zero, add_zero, neg_zsmul]

theorem modInverse_sub (s N : Int) (hodd : N % 2 = 1) (hN : 2 < N) :
    modInverse (N - s) N ≡ -modInverse s N [ZMOD N] := by
  have hn : Odd (N - 2).toNat := by
    rw [← Int.odd_coe_nat, Int.toNat_of_nonneg (by omega), Int.odd_iff]
    omega
  have hbase : N - s ≡ -s [ZMOD N] := by
    have h : (N - s) ≡ (0 - s) [ZMOD N] := Int.ModEq.sub_right s (Int.emod_self (a := N))
    simpa using h
  have hpow : (N - s) ^ (N - 2).toNat ≡ -(s ^ (N - 2).toNat) [ZMOD N] := by
    have h := hbase.pow (N - 2).toNat
    rwa [hn.neg_pow] at h
  unfold modInverse
  exact ((Int.mod_modEq _ N).trans hpow).trans (Int.mod_modEq _ N).symm.neg

/-- A valid signature `(r, s)` stays valid when `s` is replaced by `N - s`, on a curve whose base
point and public point are annihilated by the odd order `N` and where a point and its negative
have the same x coordinate. -/
theorem ecdsaVerify_sub {P : Type} [AddCommGroup P] (A : CurveArith P) (pub : PublicKey)
    (hash : Bytes) (r s : Int)
    (hodd : pub.Curve.N % 2 = 1)
    (hbase : pub.Curve.N • A.base = 0)
    (hpoint : pub.Curve.N • A.point pub.X pub.Y = 0)
    (hneg : ∀ p, A.affineX (-p) = A.affineX p)
    (hvalid : ecdsaVerify A pub hash r s = true) :
    ecdsaVerify A pub hash r (pub.Curve.N - s) = true := by
  have hr : ¬ (r ≤ 0 ∨ s ≤ 0) := by
    intro h
    simp [ecdsaVerify, h] at hvalid
  have hn : ¬ (pub.Curve.N ≤ r ∨ pub.Curve.N ≤ s) := by
    intro h
    simp [ecdsaVerify, hr, h] at hvalid
  have hr' : ¬ (r ≤ 0 ∨ pub.Curve.N - s ≤ 0) := by omega
  have hn' : ¬ (pub.Curve.N ≤ r ∨ pub.Curve.N ≤ pub.Curve.N - s) := by omega
  have hN : 2 < pub.Curve.N := by omega
  have hw := modInverse_sub s pub.Curve.N hodd hN
  have hu1 : A.hashToInt hash * modInverse (pub.Curve.N - s) pub.Curve.N % pub.Curve.N
      ≡ -(A.hashToInt hash * modInverse s pub.Curve.N % pub.Curve.N) [ZMOD pub.Curve.N] := by
    have h := (hw.mul_left (A.hashToInt hash))
    rw [mul_neg] at h
    exact ((Int.mod_modEq _ _).trans h).trans (Int.mod_modEq _ _).symm.neg
  have hu2 : r * modInverse (pub.Curve.N - s) pub.Curve.N % pub.Curve.N
      ≡ -(r * modInverse s pub.Curve.N % pub.Curve.N) [ZMOD pub.Curve.N] := by
    have h := (hw.mul_left r)
    rw [mul_neg] at h
    exact ((Int.mod_modEq _ _).trans h).trans (Int.mod_modEq _ _).symm.neg
  have hsum : (A.hashToInt hash * modInverse (pub.Curve.N - s) pub.Curve.N % pub.Curve.N) • A.base
      + (r * modInverse (pub.Curve.N - s) pub.Curve.N % pub.Curve.N) • A.point pub.X pub.Y
      = -((A.hashToInt hash * modInverse s pub.Curve.N % pub.Curve.N) • A.base
          + (r * modInverse s pub.Curve.N % pub.Curve.N) • A.point pub.X pub.Y) := by
    rw [zsmul_eq_neg_of_modEq A.base pub.Curve.N _ _ hbase hu1,
      zsmul_eq_neg_of_modEq (A.point pub.X pub.Y) pub.Curve.N _ _ hpoint hu2, neg_add]
  unfold ecdsaVerify at hvalid ⊢
  simp only [if_neg hr, if_neg hn] at hvalid
  simp only [if_neg hr', if_neg hn', hsum, hneg]
  exact hvalid

theorem SignatureToLowS_ok (L : Lib) (k : Option PublicKey) (raw sig : Bytes)
    (hcodec : ∀ r s, L.asn1Unmarshal (L.asn1Marshal r s) = .ok (r, s))
    (h : SignatureToLowS L k raw = .ok sig) :
    ∃ pub, k = some pub ∧ DecodesLowS L pub raw sig := by
  unfold SignatureToLowS at h
  cases hraw : UnmarshalECDSASignature L raw with
  | error e => simp [hraw] at h
  | panic e => simp [hraw] at h
  | ok rs =>
    obtain ⟨r, s⟩ := rs
    cases k with
    | none => simp [hraw] at h
    | some pub =>
      refine ⟨pub, rfl, ?_⟩
      simp only [hraw] at h
      by_cases hlow : s ≤ halfOrder pub
      · simp only [hlow, if_true, Outcome.ok.injEq] at h
        subst h
        exact ⟨r, s, s, hraw, hraw, hlow, Or.inl rfl, fun h0 _ => h0⟩
      · simp only [hlow, if_false, Outcome.ok.injEq] at h
        subst h
        refine ⟨r, s, pub.Curve.N - s, hraw, ?_, ?_, Or.inr rfl, ?_⟩
        · simp [UnmarshalECDSASignature, hcodec]
        · unfold halfOrder at hlow
          omega
        · intro _ hN
          omega

/-- C2: when the ASN.1 coding of signatures round-trips, a signature that `VaultCryptoSuite.Sign`
or `VaultSigningIdentity.Sign` returns without error decodes as a pair `(r, s)` whose `r` is the
`r` of the raw signature that the custody service returned and whose `s` is at most `N / 2`, with
`N` the order of the curve of the key. -/
theorem Sign_returns_low_S (L : Lib)
    (hcodec : ∀ r s, L.asn1Unmarshal (L.asn1Marshal r s) = .ok (r, s)) :
    (∀ (c : VaultCryptoSuite) (k : CoreKey) (digest sig : Bytes),
        c.Sign L k digest = .ok sig →
        ∃ vaultKey pub raw, k = .vaultKey vaultKey ∧ vaultKey.PubKey = some pub
          ∧ c.vault.TransitSign L digest vaultKey.ID true = .ok raw
          ∧ DecodesLowS L pub raw sig)
    ∧ (∀ (m : VaultSigningIdentity) (msg sig : Bytes),
        m.Sign L msg = .ok sig →
        ∃ vault key pub raw, m.VaultIdentity.Vault = some vault ∧ m.VaultIdentity.Key = some key
          ∧ key.PubKey = some pub
          ∧ vault.TransitSign L (L.sha256 msg) key.ID true = .ok raw
          ∧ DecodesLowS L pub raw sig) := by
  constructor
  · intro c k digest sig h
    cases k with
    | other t => simp [VaultCryptoSuite.Sign] at h
    | vaultKey vaultKey =>
      simp only [VaultCryptoSuite.Sign] at h
      cases hraw : c.vault.TransitSign L digest vaultKey.ID true with
      | error e => simp [hraw] at h
      | panic e => simp [hraw] at h
      | ok raw =>
        simp only [hraw] at h
        cases hlow : SignatureToLowS L vaultKey.PubKey raw with
        | error e => simp [hlow] at h
        | panic e => simp [hlow] at h
        | ok low =>
          simp only [hlow, Outcome.ok.injEq] at h
          subst h
          obtain ⟨pub, hpub, hdec⟩ := SignatureToLowS_ok L _ raw low hcodec hlow
          exact ⟨vaultKey, pub, raw, rfl, hpub, hraw, hdec⟩
  · intro m msg sig h
    simp only [VaultSigningIdentity.Sign] at h
    cases hkey : m.VaultIdentity.Key with
    | none => simp [hkey] at h
    | some key =>
      cases hvault : m.VaultIdentity.Vault with
      | none => simp [hkey, hvault] at h
      | some vault =>
        simp only [hkey, hvault] at h
        cases hraw : vault.TransitSign L (L.sha256 msg) key.ID true with
        | error e => simp [hraw] at h
        | panic e => simp [hraw] at h
        | ok raw =>
          simp only [hraw] at h
          cases hlow : SignatureToLowS L key.PubKey raw with
          | error e => simp [hlow] at h
          | panic e => simp [hlow] at h
          | ok low =>
            simp only [hlow, Outcome.ok.injEq] at h
            subst h
            obtain ⟨pub, hpub, hdec⟩ := SignatureToLowS_ok L _ raw low hcodec hlow
            exact ⟨vault, key, pub, raw, rfl, rfl, hpub, hraw, hdec⟩

/-- Witness of C2: the custody service returns the high-S signature `(7, 13)` on the curve of
order 19; both `Sign` methods return `(7, 6)`. -/
theorem Sign_returns_low_S_witness :
    (∃ vaultKey pub raw, CoreKey.vaultKey demoKey = .vaultKey vaultKey
        ∧ vaultKey.PubKey = some pub
        ∧ demoSuite.vault.TransitSign demoLib [5] vaultKey.ID true = .ok raw
        ∧ DecodesLowS demoLib pub raw (demoMarshal 7 6))
    ∧ (∃ vault key pub raw, some demoSigner = some vault ∧ some demoKey = some key
        ∧ key.PubKey = some pub
        ∧ vault.TransitSign demoLib (demoLib.sha256 [5]) key.ID true = .ok raw
        ∧ DecodesLowS demoLib pub raw (demoMarshal 7 6)) :=
  ⟨(Sign_returns_low_S demoLib demo_codec_roundtrip).1 demoSuite (.vaultKey demoKey) [5]
      (demoMarshal 7 6) (by decide),
   (Sign_returns_low_S demoLib demo_codec_roundtrip).2
      { VaultIdentity := { MSPID := "Org1MSP", IDBytes := [], Vault := some demoSigner,
                           Key := some demoKey } }
      [5] (demoMarshal 7 6) (by decide)⟩

/-- C9: round trip.  On a curve of odd order `N` whose base point and public point are
annihilated by `N` and where a point and its negative have the same x coordinate, and with an
ASN.1 coding that round-trips: when the custody service answers the sign request for the digest
with a signature that decodes and is valid for the digest under the key's public key, `Sign`
succeeds and `Verify` accepts the signature it returns. -/
theorem Sign_then_Verify {P : Type} [AddCommGroup P] (L : Lib) (A : CurveArith P)
    (c : VaultCryptoSuite) (key : VaultKey) (pub : PublicKey) (digest raw : Bytes) (r s : Int)
    (hcodec : ∀ r s, L.asn1Unmarshal (L.asn1Marshal r s) = .ok (r, s))
    (hodd : pub.Curve.N % 2 = 1)
    (hbase : pub.Curve.N • A.base = 0)
    (hpoint : pub.Curve.N • A.point pub.X pub.Y = 0)
    (hneg : ∀ p, A.affineX (-p) = A.affineX p)
    (hkey : key.PubKey = some pub)
    (hreply : c.vault.TransitSign L digest key.ID true = .ok raw)
    (hraw : UnmarshalECDSASignature L raw = .ok (r, s))
    (hvalid : ecdsaVerify A pub digest r s = true) :
    ∃ sig, c.Sign L (.vaultKey key) digest = .ok sig
      ∧ c.Verify L A (.vaultKey key) sig digest = .ok true := by
  by_cases hlow : s ≤ halfOrder pub
  · refine ⟨raw, ?_, ?_⟩
    · simp [VaultCryptoSuite.Sign, hreply, SignatureToLowS, hraw, hkey, hlow]
    · simp [VaultCryptoSuite.Verify, hraw, hkey, hvalid]
  · have hdec : UnmarshalECDSASignature L (L.asn1Marshal r (pub.Curve.N - s))
        = .ok (r, pub.Curve.N - s) := by
      simp [UnmarshalECDSASignature, hcodec]
    refine ⟨L.asn1Marshal r (pub.Curve.N - s), ?_, ?_⟩
    · simp [VaultCryptoSuite.Sign, hreply, SignatureToLowS, hraw, hkey, hlow]
    · simp [VaultCryptoSuite.Verify, hdec, hkey,
        ecdsaVerify_sub A pub digest r s hodd hbase hpoint hneg hvalid]

/-- Witness of C9: the signature `(7, 13)` of the digest `[5]` under the key `7 G` on the curve
of order 19. -/
theorem Sign_then_Verify_witness :
    ∃ sig, demoSuite.Sign demoLib (.vaultKey demoKey) [5] = .ok sig
      ∧ demoSuite.Verify demoLib demoArith (.vaultKey demoKey) sig [5] = .ok true :=
  Sign_then_Verify demoLib demoArith demoSuite demoKey demoPub [5] demoRawSignature 7 13
    demo_codec_roundtrip (by decide) (by decide) (by decide) (by decide) rfl (by decide)
    (by decide) (by decide)



end CclSdk
